import Mathlib

/-!
# QuickColab `install_descriptor.py` — verification development

Shallow embedding of `src/QuickColab/install_descriptor.py`.

The module persists batch-installation progress in a per-installer JSON file
`/tmp/{installer_type}_install_progress.json` holding
`{"packages": [...], "current_index": n}`.  We model the relevant slice of
the file system as a map from installer type (the key substituted into the
path pattern) to the optional content of that progress file.

External effects are modelled by oracles:
* `installOk : String → Bool` — the outcome of `subprocess.check_call` for a
  given package (`_install_single_package` returns `True` exactly when the
  call does not raise `CalledProcessError`);
* `saveOk : Nat → Bool` — whether the `open(...,'w')`/`json.dump` inside
  `_save_progress` succeeds when saving index `n` (an `OSError` there is
  uncaught and propagates out of the loop).
-/

namespace QuickColab

/-- The parsed checkpoint record `{'packages': ..., 'current_index': ...}`
written by `_save_progress` and read back by `_load_progress`. -/
structure Checkpoint where
  packages : List String
  current_index : Nat
deriving Repr, DecidableEq

/-- Content of a progress file as seen by `_load_progress`:
`valid c` models text that `json.load` parses to the checkpoint record `c`;
`corrupt` models text that `json.load` rejects (raising `JSONDecodeError`). -/
inductive FileContent where
  | valid (c : Checkpoint)
  | corrupt
deriving Repr, DecidableEq

/-- The progress-file slice of the file system: for each installer type,
the content of `/tmp/{t}_install_progress.json`, or `none` when the file
does not exist. -/
abbrev Store := String → Option FileContent

/-- Errors raised by the storage helpers. `jsonDecodeError` is the
`json.JSONDecodeError` escaping `_load_progress` on a corrupt record. -/
inductive StorageError where
  | jsonDecodeError
deriving Repr, DecidableEq

/-- `InstallDescriptor._save_progress`: opens the progress file for writing
and dumps `{'packages': packages, 'current_index': current_index}`,
overwriting whatever was there. -/
def save_progress (st : Store) (t : String) (packages : List String)
    (current_index : Nat) : Store :=
  fun k => if k = t then some (.valid ⟨packages, current_index⟩) else st k

/-- `InstallDescriptor._load_progress`: returns `None` when the file does not
exist; otherwise `json.load`s it, which raises on a corrupt record and the
exception propagates to the caller. -/
def load_progress (st : Store) (t : String) :
    Except StorageError (Option Checkpoint) :=
  match st t with
  | none => .ok none
  | some (.valid c) => .ok (some c)
  | some .corrupt => .error .jsonDecodeError

/-- `InstallDescriptor._clear_progress`: removes the progress file if it
exists; does nothing (and raises nothing) when it does not. -/
def clear_progress (st : Store) (t : String) : Store :=
  if (st t).isSome then (fun k => if k = t then none else st k) else st

/-- `AptInstallDescriptor._install_single_package` /
`PipInstallDescriptor._install_single_package`: runs the package manager via
`subprocess.check_call` and returns `True` on success, `False` on
`CalledProcessError`.  The body performs no file operations, so it neither
takes nor returns a `Store`; the process outcome is the oracle's verdict. -/
def install_single_package (installOk : String → Bool) (package : String) :
    Bool :=
  installOk package

/-- The in-memory state threaded through one `_install_multiple_packages`
run: the `(index, package)` pairs attempted so far (each
`_install_single_package` call, in order), the `progress.value` of the
`IntProgress` widget, and the file-system slice. -/
structure EngineState where
  attempts : List (Nat × String)
  progressValue : Nat
  store : Store

/-- Outcome of one `_install_multiple_packages` call:
`normal` — the method returned (paused on a failed package, or ran the
trailing completion check); `readError` — `json.load` raised inside
`_load_progress` before anything ran; `writeError` — `_save_progress`
raised and the exception propagated out of the loop. -/
inductive RunResult where
  | normal (s : EngineState)
  | readError (st : Store)
  | writeError (s : EngineState)

/-- The `for i, pkg in enumerate(packages[start_index:], start=start_index)`
loop of `_install_multiple_packages`, followed (when the loop finishes
without an early `return`) by the `if progress.value == len(packages)`
completion check that clears the progress file.  `rest` is the remaining
slice `packages[i:]`.  On success the widget value is set to `i+1` *before*
`_save_progress` runs; on failure the method returns at once, skipping the
completion check. -/
def installFrom (t : String) (installOk : String → Bool) (saveOk : Nat → Bool)
    (packages : List String) (rest : List String) (i : Nat)
    (s : EngineState) : RunResult :=
  match rest with
  | [] =>
    if s.progressValue = packages.length then
      .normal { s with store := clear_progress s.store t }
    else
      .normal s
  | pkg :: rest' =>
    let s1 : EngineState := { s with attempts := s.attempts ++ [(i, pkg)] }
    if install_single_package installOk pkg then
      let s2 : EngineState := { s1 with progressValue := i + 1 }
      if saveOk (i + 1) then
        installFrom t installOk saveOk packages rest' (i + 1)
          { s2 with store := save_progress s2.store t packages (i + 1) }
      else
        .writeError s2
    else
      .normal s1

/-- `_install_multiple_packages(packages)` for installer type `t`:
loads the checkpoint (propagating a decode error); if a record was loaded,
both the package list and the start index are taken from it and the
caller's `requested` list is dropped (`packages = progress_data['packages']`,
`start_index = progress_data['current_index']`); otherwise the caller's list
is used from index 0.  The `IntProgress` widget starts at `start_index`, and
the loop runs over `packages[start_index:]`.  (The loaded record is a
two-key dict, hence always truthy in the `if progress_data:` test.) -/
def install_multiple_packages (t : String) (installOk : String → Bool)
    (saveOk : Nat → Bool) (requested : List String) (st : Store) : RunResult :=
  match load_progress st t with
  | .error _ => .readError st
  | .ok progressData =>
    match progressData with
    | some c =>
      installFrom t installOk saveOk c.packages
        (c.packages.drop c.current_index) c.current_index
        { attempts := [], progressValue := c.current_index, store := st }
    | none =>
      installFrom t installOk saveOk requested requested 0
        { attempts := [], progressValue := 0, store := st }

/-- The attempted `(index, package)` pairs of a run, in order. -/
def RunResult.attempts : RunResult → List (Nat × String)
  | .normal s => s.attempts
  | .readError _ => []
  | .writeError s => s.attempts

/-- The file-system slice after a run. -/
def RunResult.storeOf : RunResult → Store
  | .normal s => s.store
  | .readError st => st
  | .writeError s => s.store

/-- The widget `progress.value` after a run. -/
def RunResult.progressOf : RunResult → Nat
  | .normal s => s.progressValue
  | .readError _ => 0
  | .writeError s => s.progressValue

/-- The value assigned to the descriptor attribute: a `str`, a `list`, or
anything else. -/
inductive PkgArg where
  | str (s : String)
  | list (l : List String)
  | other

/-- Outcome of `__set__`: the single-package path (recording the package and
the boolean its helper returned), the multi-package path, or the
`TypeError` raised for any other argument type.  Each constructor carries
the file-system slice after the call. -/
inductive SetOutcome where
  | single (pkg : String) (ok : Bool) (st : Store)
  | multiple (r : RunResult)
  | typeError (st : Store)

/-- `AptInstallDescriptor.__set__` / `PipInstallDescriptor.__set__`:
a `str` goes to `_install_single_package`, a `list` to
`_install_multiple_packages`, anything else raises
`TypeError("Package must be a string or a list of strings")`. -/
def descriptor_set (t : String) (installOk : String → Bool)
    (saveOk : Nat → Bool) (package : PkgArg) (st : Store) : SetOutcome :=
  match package with
  | .str p => .single p (install_single_package installOk p) st
  | .list l => .multiple (install_multiple_packages t installOk saveOk l st)
  | .other => .typeError st

/-- File-system slice after a `__set__` call. -/
def SetOutcome.storeOf : SetOutcome → Store
  | .single _ _ st => st
  | .multiple r => r.storeOf
  | .typeError st => st

/-- The packages on which an installer process was launched during a
`__set__` call, in order. -/
def SetOutcome.attemptedPackages : SetOutcome → List String
  | .single p _ _ => [p]
  | .multiple r => r.attempts.map Prod.snd
  | .typeError _ => []

/-- The packages attempted when the loop starts at index `i` on the
remaining slice `rest`: every package up to and including the first failure,
or all of them when none fails. -/
def expectedAttempts (installOk : String → Bool) :
    List String → Nat → List (Nat × String)
  | [], _ => []
  | p :: ps, i =>
    (i, p) :: (if installOk p then expectedAttempts installOk ps (i + 1) else [])

/-- Did the run abort with a propagated storage-write exception? -/
def RunResult.aborted : RunResult → Bool
  | .writeError _ => true
  | _ => false

/-! ## Raw file-level model of `_save_progress`

For the atomicity claim the abstract `Store` is too coarse: we model the
progress file's raw text.  `_save_progress` does
`open(path, 'w')` — which truncates the file at once — and then
`json.dump(record, f)`, which writes the serialized record into it.  There
is no temporary file and no rename. -/

/-- The raw text of each progress file (or `none` when absent). -/
abbrev RawStore := String → Option String

/-- The serialized form `json.dump` writes for a checkpoint record. -/
def encodeCheckpoint (c : Checkpoint) : String :=
  "\x7b\"packages\": [" ++
    String.intercalate ", " (c.packages.map (fun p => "\"" ++ p ++ "\"")) ++
    "], \"current_index\": " ++ toString c.current_index ++ "\x7d"

/-- `_save_progress` at the file level, when the write runs to completion:
the file holds exactly the new serialized record. -/
def save_progress_raw (st : RawStore) (t : String) (packages : List String)
    (current_index : Nat) : RawStore :=
  fun k =>
    if k = t then some (encodeCheckpoint ⟨packages, current_index⟩) else st k

/-- `_save_progress` interrupted by a crash after `n` characters reached the
file: since `open(path, 'w')` truncates immediately and `json.dump` writes
in place, the file is left holding a prefix of the new record — the prior
content is already gone. -/
def save_progress_crashed (st : RawStore) (t : String) (packages : List String)
    (current_index : Nat) (n : Nat) : RawStore :=
  fun k =>
    if k = t then some ((encodeCheckpoint ⟨packages, current_index⟩).take n)
    else st k

/-! ## Helper lemmas -/

/-- After `_clear_progress`, the progress file for that installer type is
gone, whether or not it existed. -/
theorem clear_progress_key (st : Store) (t : String) :
    clear_progress st t t = none := by
  by_cases h : (st t).isSome
  · simp [clear_progress, h]
  · rw [Option.not_isSome_iff_eq_none] at h
    simp [clear_progress, h]

/-- When every save succeeds, the loop returns normally and appends exactly
the expected attempt trace for its remaining slice. -/
theorem installFrom_allSaves (t : String) (io : String → Bool)
    (so : Nat → Bool) (P : List String) (hso : ∀ n, so n = true) :
    ∀ (rest : List String) (i : Nat) (s : EngineState),
      ∃ s', installFrom t io so P rest i s = .normal s' ∧
        s'.attempts = s.attempts ++ expectedAttempts io rest i := by
  intro rest
  induction rest with
  | nil =>
    intro i s
    by_cases h : s.progressValue = P.length
    · refine ⟨{ s with store := clear_progress s.store t }, ?_, ?_⟩
      · simp [installFrom, h]
      · simp [expectedAttempts]
    · refine ⟨s, ?_, ?_⟩
      · simp [installFrom, h]
      · simp [expectedAttempts]
  | cons p ps ih =>
    intro i s
    by_cases hp : io p = true
    · obtain ⟨s', h1, h2⟩ := ih (i + 1)
        { attempts := s.attempts ++ [(i, p)], progressValue := i + 1,
          store := save_progress s.store t P (i + 1) }
      refine ⟨s', ?_, ?_⟩
      · rw [← h1]
        simp [installFrom, install_single_package, hp, hso (i + 1)]
      · rw [h2]
        simp [expectedAttempts, hp]
    · refine ⟨{ s with attempts := s.attempts ++ [(i, p)] }, ?_, ?_⟩
      · simp [installFrom, install_single_package, hp]
      · simp [expectedAttempts, hp]

/-- When every remaining package installs and every save succeeds, the loop
runs to the completion check with `progress.value = len(packages)` and
clears the progress file. -/
theorem installFrom_allOk_clears (t : String) (io : String → Bool)
    (so : Nat → Bool) (P : List String) (hso : ∀ n, so n = true) :
    ∀ (rest : List String) (i : Nat) (s : EngineState),
      (∀ p ∈ rest, io p = true) →
      i + rest.length = P.length →
      s.progressValue = i →
      ∃ s', installFrom t io so P rest i s = .normal s' ∧
        s'.store t = none := by
  intro rest
  induction rest with
  | nil =>
    intro i s _ hlen hpv
    have h : s.progressValue = P.length := by
      simp only [List.length_nil, Nat.add_zero] at hlen
      omega
    refine ⟨{ s with store := clear_progress s.store t }, ?_, ?_⟩
    · simp [installFrom, h]
    · exact clear_progress_key s.store t
  | cons p ps ih =>
    intro i s hall hlen hpv
    have hp : io p = true := hall p (List.mem_cons_self p ps)
    have hstep : installFrom t io so P (p :: ps) i s =
        installFrom t io so P ps (i + 1)
          { attempts := s.attempts ++ [(i, p)], progressValue := i + 1,
            store := save_progress s.store t P (i + 1) } := by
      simp [installFrom, install_single_package, hp, hso (i + 1)]
    rw [hstep]
    refine ih (i + 1) _ (fun q hq => hall q (List.mem_cons_of_mem p hq)) ?_ rfl
    simp only [List.length_cons] at hlen
    omega

/-! ## Claims -/

/-- C8: `Clear(backend_id)` is idempotent — clearing an identity with no
existing session is not an error (the `os.path.exists` guard in
`_clear_progress` makes the no-file path raise nothing) and leaves the
store unchanged, and for every state, clearing twice equals clearing
once. -/
theorem clear_progress_idempotent (st : Store) (t : String) :
    (st t = none → clear_progress st t = st) ∧
    clear_progress (clear_progress st t) t = clear_progress st t := by
  constructor
  · intro h
    simp [clear_progress, h]
  · have hnone : clear_progress st t t = none := clear_progress_key st t
    conv_lhs => rw [clear_progress]
    rw [hnone]
    simp

/-- Witness for C8 at the empty store and backend identity `apt`. -/
theorem clear_progress_idempotent_witness :
    clear_progress (fun _ => none) "apt" = (fun _ => none : Store) ∧
    clear_progress (clear_progress (fun _ => none) "apt") "apt" =
      clear_progress (fun _ => none) "apt" :=
  ⟨(clear_progress_idempotent (fun _ => none) "apt").1 rfl,
   (clear_progress_idempotent (fun _ => none) "apt").2⟩

/-- C5: `_load_progress` returns `None` (not an error) when no progress
file exists, returns the record when one exists and parses, and raises
exactly when the existing record is corrupt — in which case the exception
propagates out of `_install_multiple_packages` to the caller with the
store untouched, rather than silently resuming. -/
theorem load_progress_spec (st : Store) (t : String) (io : String → Bool)
    (so : Nat → Bool) (R : List String) :
    (st t = none → load_progress st t = .ok none) ∧
    (∀ c, st t = some (.valid c) → load_progress st t = .ok (some c)) ∧
    ((∃ e, load_progress st t = .error e) ↔ st t = some .corrupt) ∧
    (st t = some .corrupt →
      install_multiple_packages t io so R st = .readError st) := by
  refine ⟨fun h => ?_, fun c h => ?_, ⟨fun ⟨e, he⟩ => ?_, fun h => ?_⟩,
    fun h => ?_⟩
  · simp [load_progress, h]
  · simp [load_progress, h]
  · by_contra hne
    rcases hcase : st t with _ | f
    · simp [load_progress, hcase] at he
    · rcases f with c | _
      · simp [load_progress, hcase] at he
      · exact hne hcase
  · exact ⟨.jsonDecodeError, by simp [load_progress, h]⟩
  · simp [install_multiple_packages, load_progress, h]

/-- Witness for C5: absence yields `none`; a corrupt record makes the
engine propagate the read error with the store untouched. -/
theorem load_progress_spec_witness :
    load_progress (fun _ => none) "apt" = .ok none ∧
    install_multiple_packages "pip" (fun _ => true) (fun _ => true) ["x"]
      (fun k => if k = "pip" then some .corrupt else none) =
      .readError (fun k => if k = "pip" then some .corrupt else none) :=
  ⟨(load_progress_spec (fun _ => none) "apt" (fun _ => true) (fun _ => true)
      []).1 rfl,
   (load_progress_spec (fun k => if k = "pip" then some .corrupt else none)
      "pip" (fun _ => true) (fun _ => true) ["x"]).2.2.2 (by decide)⟩

/-- C9: assigning a single string installs exactly that one package via
`_install_single_package` and never touches a progress file: the store is
unchanged at every backend identity, whether the install succeeds or
fails. -/
theorem single_string_no_checkpoint (t : String) (io : String → Bool)
    (so : Nat → Bool) (p : String) (st : Store) :
    descriptor_set t io so (.str p) st =
      .single p (install_single_package io p) st ∧
    (descriptor_set t io so (.str p) st).attemptedPackages = [p] ∧
    ∀ k, (descriptor_set t io so (.str p) st).storeOf k = st k :=
  ⟨rfl, rfl, fun _ => rfl⟩

/-- C10: assigning a value that is neither a string nor a list raises
`TypeError`, with no install attempted and the store unchanged at every
backend identity. -/
theorem type_error_frame (t : String) (io : String → Bool)
    (so : Nat → Bool) (st : Store) :
    descriptor_set t io so .other st = .typeError st ∧
    (descriptor_set t io so .other st).attemptedPackages = [] ∧
    ∀ k, (descriptor_set t io so .other st).storeOf k = st k :=
  ⟨rfl, rfl, fun _ => rfl⟩

/-- C1: with a checkpoint `(P, k)` present for backend identity `t` and
saves succeeding, a fresh run ignores the caller's `requested_packages`
entirely — any two caller lists yield identical runs — and attempts exactly
the persisted list from index `k`; the caller's list drives the run only
when no checkpoint exists. -/
theorem resume_uses_checkpoint (t : String) (io : String → Bool)
    (so : Nat → Bool) (P R R' : List String) (k : Nat) (st : Store)
    (hk : k ≤ P.length) (hst : st t = some (.valid ⟨P, k⟩))
    (hso : ∀ n, so n = true) :
    install_multiple_packages t io so R st =
      install_multiple_packages t io so R' st ∧
    (install_multiple_packages t io so R st).attempts =
      expectedAttempts io (P.drop k) k ∧
    ∀ st2 : Store, st2 t = none →
      (install_multiple_packages t io so R st2).attempts =
        expectedAttempts io R 0 := by
  have hrun : ∀ Q : List String, install_multiple_packages t io so Q st =
      installFrom t io so P (P.drop k) k
        { attempts := [], progressValue := k, store := st } := by
    intro Q
    simp [install_multiple_packages, load_progress, hst]
  refine ⟨(hrun R).trans (hrun R').symm, ?_, ?_⟩
  · obtain ⟨s', h1, h2⟩ := installFrom_allSaves t io so P hso (P.drop k) k
      { attempts := [], progressValue := k, store := st }
    rw [hrun R, h1]
    simpa [RunResult.attempts] using h2
  · intro st2 h2
    have hrun2 : install_multiple_packages t io so R st2 =
        installFrom t io so R R 0
          { attempts := [], progressValue := 0, store := st2 } := by
      simp [install_multiple_packages, load_progress, h2]
    obtain ⟨s', h1, hatt⟩ := installFrom_allSaves t io so R hso R 0
      { attempts := [], progressValue := 0, store := st2 }
    rw [hrun2, h1]
    simpa [RunResult.attempts] using hatt

/-- Witness for C1: checkpoint `(["a","b"], 1)` for `apt`; the run attempts
exactly the persisted suffix from index 1, and with no checkpoint the
caller's list is attempted from index 0. -/
theorem resume_uses_checkpoint_witness :
    (install_multiple_packages "apt" (fun _ => true) (fun _ => true) ["x"]
        (fun q => if q = "apt" then some (.valid ⟨["a", "b"], 1⟩)
                  else none)).attempts =
      expectedAttempts (fun _ => true) ((["a", "b"] : List String).drop 1) 1 ∧
    (install_multiple_packages "apt" (fun _ => true) (fun _ => true) ["x"]
        (fun _ => none)).attempts =
      expectedAttempts (fun _ => true) ["x"] 0 :=
  ⟨(resume_uses_checkpoint "apt" (fun _ => true) (fun _ => true) ["a", "b"]
      ["x"] ["y"] 1
      (fun q => if q = "apt" then some (.valid ⟨["a", "b"], 1⟩) else none)
      (by decide) (by decide) (fun _ => rfl)).2.1,
   (resume_uses_checkpoint "apt" (fun _ => true) (fun _ => true) ["a", "b"]
      ["x"] ["y"] 1
      (fun q => if q = "apt" then some (.valid ⟨["a", "b"], 1⟩) else none)
      (by decide) (by decide) (fun _ => rfl)).2.2 (fun _ => none) rfl⟩

/-- C2: on a fresh run over `[A, B, C]` where `A` succeeds, `B` fails and
the save after `A` succeeds, the engine attempts exactly `A` then `B`
(never `C`), returns normally (paused, no exception), and the persisted
checkpoint holds `next_index = 1` — the failing package's index is never
persisted as completed. -/
theorem failure_halts (t A B C : String) (io : String → Bool)
    (so : Nat → Bool) (st : Store) (h0 : st t = none) (hA : io A = true)
    (hB : io B = false) (hso : so 1 = true) :
    (install_multiple_packages t io so [A, B, C] st).attempts =
      [(0, A), (1, B)] ∧
    (install_multiple_packages t io so [A, B, C] st).aborted = false ∧
    (install_multiple_packages t io so [A, B, C] st).storeOf t =
      some (.valid ⟨[A, B, C], 1⟩) := by
  have hrun : install_multiple_packages t io so [A, B, C] st =
      .normal { attempts := [(0, A), (1, B)], progressValue := 1,
                store := save_progress st t [A, B, C] 1 } := by
    simp [install_multiple_packages, load_progress, h0, installFrom,
      install_single_package, hA, hB, hso]
  rw [hrun]
  refine ⟨rfl, rfl, ?_⟩
  simp [RunResult.storeOf, save_progress]

/-- Witness for C2 with concrete packages where `a` succeeds and `b`
fails. -/
theorem failure_halts_witness :
    (install_multiple_packages "apt" (fun p => p == "a") (fun _ => true)
        ["a", "b", "c"] (fun _ => none)).attempts = [(0, "a"), (1, "b")] ∧
    (install_multiple_packages "apt" (fun p => p == "a") (fun _ => true)
        ["a", "b", "c"] (fun _ => none)).aborted = false ∧
    (install_multiple_packages "apt" (fun p => p == "a") (fun _ => true)
        ["a", "b", "c"] (fun _ => none)).storeOf "apt" =
      some (.valid ⟨["a", "b", "c"], 1⟩) :=
  failure_halts "apt" "a" "b" "c" (fun p => p == "a") (fun _ => true)
    (fun _ => none) rfl (by decide) (by decide) rfl

/-- C4: when every package from the effective starting index onward
installs successfully (and saves succeed), the run ends with no checkpoint
for that backend identity — whether it started fresh or resumed from a
checkpoint `(P, k)`. -/
theorem clear_on_success (t : String) (io : String → Bool) (so : Nat → Bool)
    (R P : List String) (k : Nat) (st : Store) (hso : ∀ n, so n = true) :
    (st t = none → (∀ p ∈ R, io p = true) →
      (install_multiple_packages t io so R st).storeOf t = none) ∧
    (st t = some (.valid ⟨P, k⟩) → k ≤ P.length →
      (∀ p ∈ P.drop k, io p = true) →
      (install_multiple_packages t io so R st).storeOf t = none) := by
  constructor
  · intro h hall
    have hrun : install_multiple_packages t io so R st =
        installFrom t io so R R 0
          { attempts := [], progressValue := 0, store := st } := by
      simp [install_multiple_packages, load_progress, h]
    obtain ⟨s', h1, h2⟩ := installFrom_allOk_clears t io so R hso R 0
      { attempts := [], progressValue := 0, store := st } hall (by simp) rfl
    rw [hrun, h1]
    exact h2
  · intro h hk hall
    have hrun : install_multiple_packages t io so R st =
        installFrom t io so P (P.drop k) k
          { attempts := [], progressValue := k, store := st } := by
      simp [install_multiple_packages, load_progress, h]
    have hlen : k + (P.drop k).length = P.length := by
      simp only [List.length_drop]
      omega
    obtain ⟨s', h1, h2⟩ := installFrom_allOk_clears t io so P hso (P.drop k) k
      { attempts := [], progressValue := k, store := st } hall hlen rfl
    rw [hrun, h1]
    exact h2

/-- Witness for C4: a fresh all-success run over `["a", "b"]` leaves no
checkpoint for `apt`. -/
theorem clear_on_success_witness :
    (install_multiple_packages "apt" (fun _ => true) (fun _ => true)
      ["a", "b"] (fun _ => none)).storeOf "apt" = none :=
  (clear_on_success "apt" (fun _ => true) (fun _ => true) ["a", "b"] [] 0
    (fun _ => none) (fun _ => rfl)).1 rfl (fun _ _ => rfl)

/-- C6: a checkpoint whose `next_index` equals the length of its persisted
list is treated as already complete: the run that loads it attempts no
install (for any installer outcome) and clears the checkpoint instead of
resuming out of range. -/
theorem complete_checkpoint_cleared (t : String) (io : String → Bool)
    (so : Nat → Bool) (R P : List String) (st : Store)
    (hst : st t = some (.valid ⟨P, P.length⟩)) :
    (install_multiple_packages t io so R st).attempts = [] ∧
    (install_multiple_packages t io so R st).storeOf t = none := by
  have hrun : install_multiple_packages t io so R st =
      .normal { attempts := [], progressValue := P.length,
                store := clear_progress st t } := by
    simp [install_multiple_packages, load_progress, hst, List.drop_length,
      installFrom]
  rw [hrun]
  exact ⟨rfl, clear_progress_key st t⟩

/-- Witness for C6: a complete checkpoint `(["a"], 1)` is cleared with zero
attempts, even under an installer that would fail everything. -/
theorem complete_checkpoint_cleared_witness :
    (install_multiple_packages "apt" (fun _ => false) (fun _ => true) ["x"]
      (fun q => if q = "apt" then some (.valid ⟨["a"], 1⟩)
                else none)).attempts = [] ∧
    (install_multiple_packages "apt" (fun _ => false) (fun _ => true) ["x"]
      (fun q => if q = "apt" then some (.valid ⟨["a"], 1⟩)
                else none)).storeOf "apt" = none :=
  complete_checkpoint_cleared "apt" (fun _ => false) (fun _ => true) ["x"]
    ["a"] (fun q => if q = "apt" then some (.valid ⟨["a"], 1⟩) else none)
    (by decide)

/-- A raw store holding a valid serialized checkpoint `(["a","b"], 1)` for
`apt`. -/
def rawStoreC3 : RawStore :=
  fun q => if q = "apt" then some (encodeCheckpoint ⟨["a", "b"], 1⟩) else none

/-- Counterexample to C3: saving checkpoint `(["a","b"], 2)` over the valid
checkpoint `(["a","b"], 1)` and crashing after one character leaves the
file holding `"\x7b"` — a partially written record that is neither the
complete previous checkpoint nor the complete new one.  `_save_progress`
truncates in place with `open(path, 'w')`; there is no temporary file and
no rename. -/
theorem save_progress_not_atomic_cex :
    save_progress_crashed rawStoreC3 "apt" ["a", "b"] 2 1 "apt" =
      some "\x7b" ∧
    some "\x7b" ≠ rawStoreC3 "apt" ∧
    "\x7b" ≠ encodeCheckpoint ⟨["a", "b"], 2⟩ := by
  refine ⟨?_, ?_, ?_⟩ <;> decide

/-- C3 amended: a save that runs to completion does atomically replace the
record — the file then holds exactly the complete new checkpoint and no
other progress file is touched — but a crash mid-write is not protected:
the file is truncated in place, so a partial record can be observed (see
the counterexample). -/
theorem save_progress_completed_overwrites (st : RawStore) (t : String)
    (packages : List String) (current_index : Nat) :
    save_progress_raw st t packages current_index t =
      some (encodeCheckpoint ⟨packages, current_index⟩) ∧
    ∀ k, k ≠ t → save_progress_raw st t packages current_index k = st k := by
  constructor
  · simp [save_progress_raw]
  · intro k hkey
    simp [save_progress_raw, hkey]

/-- Witness for the amended C3 at a concrete store and checkpoint. -/
theorem save_progress_completed_overwrites_witness :
    save_progress_raw rawStoreC3 "apt" ["a"] 1 "apt" =
      some (encodeCheckpoint ⟨["a"], 1⟩) ∧
    save_progress_raw rawStoreC3 "apt" ["a"] 1 "pip" = rawStoreC3 "pip" :=
  ⟨(save_progress_completed_overwrites rawStoreC3 "apt" ["a"] 1).1,
   (save_progress_completed_overwrites rawStoreC3 "apt" ["a"] 1).2 "pip"
     (by decide)⟩

/-- Counterexample to C7: on a fresh run over `["a"]` where the install
succeeds but the save raises, the widget's in-memory `progress.value` ends
at `1` — it was advanced before the failed `_save_progress` — while the
durable store still has no checkpoint, and the exception aborted the
run. -/
theorem inmemory_advance_cex :
    (install_multiple_packages "apt" (fun _ => true) (fun _ => false) ["a"]
      (fun _ => none)).progressOf = 1 ∧
    (install_multiple_packages "apt" (fun _ => true) (fun _ => false) ["a"]
      (fun _ => none)).storeOf "apt" = none ∧
    (install_multiple_packages "apt" (fun _ => true) (fun _ => false) ["a"]
      (fun _ => none)).aborted = true :=
  ⟨rfl, rfl, rfl⟩

/-- C7 amended: when `_save_progress` raises after a successful install of
the package at index `i`, the exception propagates and aborts the run — no
later package is attempted and the stored checkpoint is not updated by the
failed save (modelled as the failing `open` writing nothing) — but
`progress.value` has already been advanced to `i + 1` before the save, so
the in-memory progress tracking does run ahead of durable state. -/
theorem write_error_aborts (t : String) (io : String → Bool)
    (so : Nat → Bool) (P rest' : List String) (p : String) (i : Nat)
    (s : EngineState) (hp : io p = true) (hso : so (i + 1) = false) :
    installFrom t io so P (p :: rest') i s =
      .writeError { attempts := s.attempts ++ [(i, p)],
                    progressValue := i + 1, store := s.store } := by
  simp [installFrom, install_single_package, hp, hso]

/-- Witness for the amended C7 at a concrete loop state. -/
theorem write_error_aborts_witness :
    installFrom "apt" (fun _ => true) (fun _ => false) ["x"] ["x"] 0
      { attempts := [], progressValue := 0, store := fun _ => none } =
      .writeError { attempts := ([] : List (Nat × String)) ++ [(0, "x")],
                    progressValue := 0 + 1, store := fun _ => none } :=
  write_error_aborts "apt" (fun _ => true) (fun _ => false) ["x"] [] "x" 0
    { attempts := [], progressValue := 0, store := fun _ => none } rfl rfl

end QuickColab
